import Mathlib

/-!
Verification of the crypto screener's adaptive rate-limited scoring pipeline
(`crypto_screener.py`): the `RateLimiter` backoff controller, the
`calculate_rs_score` scoring function, the per-symbol `process_crypto`
wrapper with its batch loop, and the top-20 result ranking.

Floating-point quantities of the rate limiter are modelled as rationals;
the scoring arithmetic (which uses `exp` and `log`) is modelled over the
reals.  Python exceptions are modelled with `Except`; Python's `None`
with `Option`.
-/

namespace Screener

/-- Substring test on character lists: does the second list occur
contiguously inside the first?  Models Python's `needle in haystack`. -/
def charsAgree : List Char → List Char → Bool
  | _, [] => true
  | [], _ :: _ => false
  | c :: t, d :: u => c == d && charsAgree t u

/-- `charsAgree hay nd` holds when `nd` begins `hay`; `strContainsAux`
scans every tail of the haystack. -/
def strContainsAux : List Char → List Char → Bool
  | [], nd => nd.isEmpty
  | c :: t, nd => charsAgree (c :: t) nd || strContainsAux t nd

/-- Models Python's `needle in haystack` on strings. -/
def strContains (haystack needle : String) : Bool :=
  strContainsAux haystack.data needle.data

/-- Models Python's `str.lower()` (ASCII case folding, which is all the
rate-limit phrase test needs). -/
def strLower (s : String) : String :=
  ⟨s.data.map Char.toLower⟩

/-- State of `RateLimiter` (`crypto_screener.py` lines 13–26): the sliding
window of request timestamps, the consecutive-error counter (a Python
`int`, hence modelled on `ℤ`), and the four configuration parameters. -/
structure RateLimiterState where
  request_times : List ℚ
  consecutive_errors : ℤ
  base_delay : ℚ
  max_delay : ℚ
  max_requests_per_minute : ℕ
  error_backoff_multiplier : ℚ
  deriving DecidableEq

/-- Models `RateLimiter.__init__`: empty request window, zero consecutive errors,
configuration taken from the (already-resolved) config values. -/
def RateLimiterState.init (base_delay max_delay : ℚ) (mpm : ℕ) (mult : ℚ) :
    RateLimiterState :=
  ⟨[], 0, base_delay, max_delay, mpm, mult⟩

/-- The wall-clock readings consumed by one call to `wait_if_needed`
(`time.time()` at lines 30, 41, 63 and 51) and the jitter drawn by
`random.uniform(0.8, 1.2)` at line 72. -/
structure AdmitEnv where
  t0 : ℚ
  t1 : ℚ
  t2 : ℚ
  t3 : ℚ
  jitter : ℚ
  deriving DecidableEq

/-- Models `RateLimiter.calculate_dynamic_delay` (lines 53–75): base delay,
error-backoff multiplier capped at exponent 5, frequency factors 1.5/1.2,
jitter, clamped at `max_delay`. -/
def calculate_dynamic_delay (rl : RateLimiterState)
    (current_time jitter : ℚ) : ℚ :=
  let delay := rl.base_delay
  let delay := if 0 < rl.consecutive_errors then
    delay * rl.error_backoff_multiplier ^ (min rl.consecutive_errors 5)
    else delay
  let recent_requests :=
    (rl.request_times.filter (fun t => current_time - t < 10)).length
  let delay := if 20 < recent_requests then delay * (3 / 2)
    else if 15 < recent_requests then delay * (6 / 5) else delay
  let delay := delay * jitter
  min delay rl.max_delay

/-- Pruning steps of `wait_if_needed` (lines 33–42): drop entries older
than 60 time-units; if the per-minute cap is reached, the code sleeps
until the oldest entry ages out and prunes again at the later clock
reading. -/
def pruned_times (rl : RateLimiterState) (env : AdmitEnv) : List ℚ :=
  let times0 := rl.request_times.filter (fun t => env.t0 - t < 60)
  if rl.max_requests_per_minute ≤ times0.length then
    times0.filter (fun t => env.t1 - t < 60) else times0

/-- Models `RateLimiter.wait_if_needed` (lines 28–51): prune the request
window, compute the dynamic delay (returned here as the second
component; the code sleeps for it), and append the current timestamp. -/
def wait_if_needed (rl : RateLimiterState) (env : AdmitEnv) :
    RateLimiterState × ℚ :=
  let rl1 := { rl with request_times := pruned_times rl env }
  let delay := calculate_dynamic_delay rl1 env.t2 env.jitter
  ({ rl1 with request_times := pruned_times rl env ++ [env.t3] }, delay)

/-- The rate-limit test of `on_error` line 82:
`"Too many requests" in error_msg or "rate limit" in error_msg.lower()`. -/
def is_rate_limit_error (msg : String) : Bool :=
  strContains msg ("Too many requests") || strContains (strLower msg) ("rate limit")

/-- The API-error test of `on_error` line 88: `"APIError" in error_msg`. -/
def is_api_error (msg : String) : Bool :=
  strContains msg ("APIError")

/-- Models `RateLimiter.on_error` (lines 77–92): increment the consecutive-error
counter, then sleep an exponential backoff for rate-limit messages or a
linear backoff for API-error messages.  The slept duration is returned as
the second component. -/
def on_error (rl : RateLimiterState) (error_msg : String) :
    RateLimiterState × ℚ :=
  let rl := { rl with consecutive_errors := rl.consecutive_errors + 1 }
  if is_rate_limit_error error_msg then
    (rl, min (5 * (2 : ℚ) ^ (min (rl.consecutive_errors - 1) 4)) 60)
  else if is_api_error error_msg then
    (rl, min (1 * (rl.consecutive_errors : ℚ)) 10)
  else
    (rl, 0)

/-- Models `RateLimiter.on_success` (lines 94–98): decrement the
consecutive-error counter when it is positive, flooring at zero. -/
def on_success (rl : RateLimiterState) : RateLimiterState :=
  if 0 < rl.consecutive_errors then
    { rl with consecutive_errors := max 0 (rl.consecutive_errors - 1) }
  else rl

/-- Applies `n` consecutive `on_error` calls (with the given messages), no
intervening `on_success`. -/
def applyErrors (rl : RateLimiterState) : List String → RateLimiterState
  | [] => rl
  | m :: ms => applyErrors (on_error rl m).1 ms

/-- One row of the downloaded indicator table: close price, the three
simple moving averages and the ATR column used by `calculate_rs_score`. -/
structure Bar where
  close : ℝ
  sma_30 : ℝ
  sma_45 : ℝ
  sma_60 : ℝ
  atr : ℝ

instance : Inhabited Bar := ⟨⟨0, 0, 0, 0, 0⟩⟩

/-- The per-bar relative strength of `calculate_rs_score` lines 220–239:
six pairwise differences of close and the three moving averages, divided
by `atr + 1e-19`. -/
noncomputable def barRelativeStrength (b : Bar) : ℝ :=
  let numerator := (b.close - b.sma_30) + (b.close - b.sma_45) +
    (b.close - b.sma_60) + (b.sma_30 - b.sma_45) +
    (b.sma_30 - b.sma_60) + (b.sma_45 - b.sma_60)
  let denominator := b.atr + 1 / 10 ^ 19
  numerator / denominator

/-- The exponential recency weight of lines 243–244:
`exp(k·i)` with `k = 2·ln 2 / required_bars`. -/
noncomputable def rsWeight (required_bars i : ℕ) : ℝ :=
  Real.exp (2 * Real.log 2 / required_bars * i)

/-- Models `calculate_rs_score` (lines 192–257).  Returns the Python triple
`(success, rs_score, error_message)`.  `data.tail(required_bars)` is the
suffix of the last `required_bars` rows, i.e. `drop (length − required_bars)`. -/
noncomputable def calculate_rs_score (crypto_data : List Bar)
    (required_bars : ℕ) : Bool × ℝ × String :=
  if crypto_data.length < required_bars then
    (false, 0, ("Insufficient data: ") ++ toString crypto_data.length ++
      (" < ") ++ toString required_bars)
  else
    let data := crypto_data.drop (crypto_data.length - required_bars)
    let rs_score := ∑ i ∈ Finset.range required_bars,
      barRelativeStrength (data.getD i default) * rsWeight required_bars i
    let total_weight := ∑ i ∈ Finset.range required_bars,
      rsWeight required_bars i
    if 0 < total_weight then (true, rs_score / total_weight, (""))
    else (false, 0, ("Weight calculation error"))

/-- Models `calc_total_bars` (lines 179–189): the fixed timeframe table;
`dict.get` yields `None` for any other timeframe. -/
def calc_total_bars (time_interval : String) (days : ℕ) : Option ℕ :=
  if time_interval = ("5m") then some (12 * 24 * days)
  else if time_interval = ("15m") then some (4 * 24 * days)
  else if time_interval = ("30m") then some (2 * 24 * days)
  else if time_interval = ("1h") then some (24 * days)
  else if time_interval = ("2h") then some (12 * days)
  else if time_interval = ("4h") then some (6 * days)
  else if time_interval = ("8h") then some (3 * days)
  else none

/-- Outcome dictionary of `process_crypto`: either
`{"status": "success", "rs_score": ...}` or
`{"status": "failed", "reason": ...}`, always tagged with the symbol. -/
inductive ScoreOutcome (K : Type) where
  | success (crypto : String) (rs_score : K)
  | failed (crypto : String) (reason : String)

instance {K : Type} : Inhabited (ScoreOutcome K) := ⟨.failed ("") ("")⟩

/-- The message of the `TypeError` raised at line 289 when
`calc_total_bars` returned `None` (`None * int` is unsupported),
exactly as CPython prints it; it is caught by the handler at
line 315. -/
def noneTypeErrorMsg : String :=
  ("unsupported operand type(s) for *: 'NoneType' and 'int'")

/-- The `ValueError` message of CPython's `int()` for an invalid
base-10 literal, quoting the offending string (CPython shows `repr` of
the argument, which is the single-quoted form for the strings arising
here). -/
def pyIntError (s : String) : String :=
  ("invalid literal for int() with base 10: '") ++ s ++ ("'")

/-- Decidable equality for `Except`, used to evaluate the modelled
parser on concrete inputs. -/
instance {ε α : Type} [DecidableEq ε] [DecidableEq α] :
    DecidableEq (Except ε α)
  | .error e1, .error e2 =>
    if h : e1 = e2 then isTrue (by rw [h]) else isFalse (by simp [h])
  | .error _, .ok _ => isFalse (by simp)
  | .ok _, .error _ => isFalse (by simp)
  | .ok a1, .ok a2 =>
    if h : a1 = a2 then isTrue (by rw [h]) else isFalse (by simp [h])

/-- Surrounding-whitespace strip performed by CPython's `int()` before
parsing. -/
def pyStrip (l : List Char) : List Char :=
  ((l.dropWhile Char.isWhitespace).reverse.dropWhile Char.isWhitespace).reverse

/-- Base-10 value of a run of decimal digits. -/
def digitsToNat (l : List Char) : ℕ :=
  l.foldl (fun a c => a * 10 + (c.toNat - 48)) 0

/-- Models CPython's `int(s)` in base 10: strip surrounding whitespace,
allow one optional sign, then require a nonempty run of ASCII decimal
digits; anything else raises `ValueError` with the original string
quoted.  (CPython additionally accepts digit-group underscores and
non-ASCII decimal digits; nothing verified here depends on those
inputs.) -/
def pyInt (s : String) : Except String ℤ :=
  let t := pyStrip s.data
  let core : ℤ × List Char :=
    match t with
    | '-' :: rest => (-1, rest)
    | '+' :: rest => (1, rest)
    | rest => (1, rest)
  if !core.2.isEmpty && core.2.all Char.isDigit then
    .ok (core.1 * digitsToNat core.2)
  else
    .error (pyIntError s)

/-- Models Python's `s.replace(c, "")` for a one-character pattern:
every occurrence of the character is removed. -/
def removeAllChar (s : String) (c : Char) : String :=
  ⟨s.data.filter (fun x => !(x == c))⟩

/-- Models the interval-seconds estimation of lines 275–287: branch on
whether the timeframe contains `m`, `h` or `d` (in that order), strip
that letter with `replace` and parse the remainder with `int()` — a
failed parse is a `ValueError` raised before the line-289
multiplication ever runs; timeframes containing none of the three
letters default to 3600. -/
def estimate_interval_seconds (timeframe : String) : Except String ℤ :=
  if strContains timeframe ("m") then
    match pyInt (removeAllChar timeframe ('m')) with
    | .error e => .error e
    | .ok minutes => .ok (minutes * 60)
  else if strContains timeframe ("h") then
    match pyInt (removeAllChar timeframe ('h')) with
    | .error e => .error e
    | .ok hours => .ok (hours * 3600)
  else if strContains timeframe ("d") then
    match pyInt (removeAllChar timeframe ('d')) with
    | .error e => .error e
    | .ok days2 => .ok (days2 * 24 * 3600)
  else
    .ok 3600

/-- The fetch message of line 295. -/
def fetchFailedMsg : String := ("Failed to get data or empty dataset")

/-- Models `process_crypto` (lines 260–319).  The external
`CryptoDownloader.get_data` call is abstracted as `fetch`, returning
either a raised exception's message (`Except.error`) or the Python pair
`(success, data)`.  Exceptions before the fetch follow the source's
evaluation order: the interval-seconds estimation (lines 275–287) runs
first and can raise `ValueError` from `int()`; only then does the
line-289 `start_ts` computation run, raising `TypeError` when
`calc_total_bars` returned `None`.  Either exception — like any other —
lands in the catch-all handler (lines 315–319): the symbol is recorded
as failed and the message reported to `RateLimiter.on_error`. -/
noncomputable def process_crypto
    (fetch : String → Except String (Bool × List Bar))
    (timeframe : String) (days : ℕ) (env : AdmitEnv) (symbol : String)
    (rl : RateLimiterState) : ScoreOutcome ℝ × RateLimiterState :=
  let rl := (wait_if_needed rl env).1
  let required_bars := calc_total_bars timeframe days
  match estimate_interval_seconds timeframe with
  | .error e => (.failed symbol e, (on_error rl e).1)
  | .ok _interval_seconds =>
    match required_bars with
    | none =>
      (.failed symbol noneTypeErrorMsg, (on_error rl noneTypeErrorMsg).1)
    | some required_bars =>
      match fetch symbol with
      | .error e => (.failed symbol e, (on_error rl e).1)
      | .ok (success, data) =>
        if !success || data.isEmpty then
          (.failed symbol fetchFailedMsg, (on_error rl fetchFailedMsg).1)
        else
          let r := calculate_rs_score data required_bars
          if r.1 then (.success symbol r.2.1, on_success rl)
          else (.failed symbol r.2.2, (on_error rl r.2.2).1)

/-- The batch loop of `__main__` (lines 348–359): process every symbol
sequentially, threading the rate-limiter state, collecting one outcome
per symbol.  (`process_crypto` is total, so the loop's defensive
`except` never fires.) -/
noncomputable def run_batch (fetch : String → Except String (Bool × List Bar))
    (timeframe : String) (days : ℕ) (envs : String → AdmitEnv) :
    List String → RateLimiterState → List (ScoreOutcome ℝ) × RateLimiterState
  | [], rl => ([], rl)
  | s :: ss, rl =>
    let pr := process_crypto fetch timeframe days (envs s) s rl
    let rest := run_batch fetch timeframe days envs ss pr.2
    (pr.1 :: rest.1, rest.2)

section Ranking

variable {K : Type}

/-- Python-dict assignment `d[key] = v` on an insertion-ordered
association list: overwrite in place when the key is present, else
append. -/
def dict_assign (d : List (String × K)) (key : String) (v : K) :
    List (String × K) :=
  if d.any (fun p => p.1 == key) then
    d.map (fun p => if p.1 == key then (p.1, v) else p)
  else d ++ [(key, v)]

/-- Reads `d[key]` for a key that is present (`default` for a missing key,
which the ranking code never queries). -/
def dict_get [Inhabited K] (d : List (String × K)) (key : String) : K :=
  match d.find? (fun p => p.1 == key) with
  | some p => p.2
  | none => default

/-- The result-partition loop of `__main__` lines 362–369: successes go
into the `target_score` dict, failures into the `failed_targets` list. -/
def build_results (acc : List (String × K) × List (String × String)) :
    List (ScoreOutcome K) → List (String × K) × List (String × String)
  | [] => acc
  | .success c s :: rs => build_results (dict_assign acc.1 c s, acc.2) rs
  | .failed c reason :: rs =>
      build_results (acc.1, acc.2 ++ [(c, reason)]) rs

/-- Models `targets.sort(key=lambda x: target_score[x], reverse=True)`
(lines 372–373): a stable sort of the dict's keys, descending by score.
Python's stable descending sort is modelled by insertion sort with the
reflexive relation `score y ≤ score x`. -/
def rank_targets [LinearOrder K] [Inhabited K] (d : List (String × K)) :
    List String :=
  List.insertionSort (fun x y => dict_get d y ≤ dict_get d x)
    (d.map Prod.fst)

/-- Models `targets[:20]` (lines 382, 398): the externally visible top-20
truncation. -/
def top_targets [LinearOrder K] [Inhabited K] (d : List (String × K)) :
    List String :=
  (rank_targets d).take 20

/-- The successful `(symbol, score)` pairs of a result sequence, in
iteration order: the reference value the `target_score` dict should
equal when symbols are distinct. -/
def successPairs : List (ScoreOutcome K) → List (String × K)
  | [] => []
  | .success c s :: rs => (c, s) :: successPairs rs
  | .failed _ _ :: rs => successPairs rs

end Ranking

/-! Concrete inputs used by the witness and counterexample theorems. -/

/-- A rate limiter built with the default configuration values of
lines 23–26 (base 0.25s, max 10s, 2200 requests/min, multiplier 2). -/
def rl0 : RateLimiterState := RateLimiterState.init (1 / 4) 10 2200 2

/-- A fixed clock/jitter environment. -/
def env0 : AdmitEnv := ⟨0, 0, 0, 0, 1⟩

/-- A bar with close 0 and ATR 1. -/
noncomputable def bw0 : Bar := ⟨0, 0, 0, 0, 1⟩

/-- The bar `bw0` with its close raised to 1, everything else equal. -/
noncomputable def bw1 : Bar := ⟨1, 0, 0, 0, 1⟩

/-- A fetch oracle for five symbols where the fetches for the second and
fourth symbol raise and the others return 24 bars successfully. -/
noncomputable def fetch0 : String → Except String (Bool × List Bar) :=
  fun s =>
    if s = ("B") then .error ("boom1")
    else if s = ("D") then .error ("boom2")
    else .ok (true, List.replicate 24 bw0)

/-- Twenty-five successful results, distinct symbols, all scores tied. -/
def c8ResultsTied : List (ScoreOutcome ℚ) :=
  [.success ("a") 0, .success ("b") 0, .success ("c") 0, .success ("d") 0,
   .success ("e") 0, .success ("f") 0, .success ("g") 0, .success ("h") 0,
   .success ("i") 0, .success ("j") 0, .success ("k") 0, .success ("l") 0,
   .success ("m") 0, .success ("n") 0, .success ("o") 0, .success ("p") 0,
   .success ("q") 0, .success ("r") 0, .success ("s") 0, .success ("t") 0,
   .success ("u") 0, .success ("v") 0, .success ("w") 0, .success ("x") 0,
   .success ("y") 0]

/-- The `target_score` dict built from `c8ResultsTied`. -/
def c8DictTied : List (String × ℚ) := (build_results ([], []) c8ResultsTied).1

/-- Twenty-five successful results that all carry the same symbol. -/
def c8ResultsDup : List (ScoreOutcome ℚ) :=
  List.replicate 25 (.success ("a") 0)

/-- The `target_score` dict built from `c8ResultsDup`. -/
def c8DictDup : List (String × ℚ) := (build_results ([], []) c8ResultsDup).1

/-- Twenty-five successful results, distinct symbols, pairwise-distinct
scores (score 26 − position). -/
def c8ResultsDistinct : List (ScoreOutcome ℚ) :=
  [.success ("a") 25, .success ("b") 24, .success ("c") 23, .success ("d") 22,
   .success ("e") 21, .success ("f") 20, .success ("g") 19, .success ("h") 18,
   .success ("i") 17, .success ("j") 16, .success ("k") 15, .success ("l") 14,
   .success ("m") 13, .success ("n") 12, .success ("o") 11, .success ("p") 10,
   .success ("q") 9, .success ("r") 8, .success ("s") 7, .success ("t") 6,
   .success ("u") 5, .success ("v") 4, .success ("w") 3, .success ("x") 2,
   .success ("y") 1]

/-- The `target_score` dict built from `c8ResultsDistinct`. -/
def c8DictDistinct : List (String × ℚ) :=
  (build_results ([], []) c8ResultsDistinct).1

/-! ## Helper lemmas -/

/-- The state component of `on_error` is the same increment in every
branch. -/
theorem on_error_state (rl : RateLimiterState) (msg : String) :
    (on_error rl msg).1 =
      { rl with consecutive_errors := rl.consecutive_errors + 1 } := by
  unfold on_error
  split
  · rfl
  · split <;> rfl

/-- Exponent clamping in `on_error` is invisible below the 60-unit cap:
the code's `min(e, 4)` exponent yields the same clamped backoff as the
unclamped exponent. -/
theorem min_exp_backoff (e : ℤ) :
    min (5 * (2 : ℚ) ^ (min e 4)) 60 = min (5 * (2 : ℚ) ^ e) 60 := by
  rcases le_or_lt e 4 with h | h
  · rw [min_eq_left h]
  · rw [min_eq_right h.le]
    have h2 : (2 : ℚ) ^ (5 : ℤ) ≤ (2 : ℚ) ^ e :=
      zpow_le_zpow_right₀ (by norm_num) (by omega)
    have h32 : ((2 : ℚ) ^ (5 : ℤ)) = 32 := by norm_num
    have h60 : (60 : ℚ) ≤ 5 * (2 : ℚ) ^ e := by nlinarith
    rw [min_eq_right h60]
    norm_num

/-! ## Claim C9 -/

/-- Claim C9: the consecutive-error counter is zero after construction,
stays non-negative under every operation, and `on_success` decrements it
by exactly one when it is positive. -/
theorem c9_error_counter_invariant :
    (∀ base maxd mpm mult,
      (RateLimiterState.init base maxd mpm mult).consecutive_errors = 0) ∧
    (∀ rl env,
      ((wait_if_needed rl env).1).consecutive_errors =
        rl.consecutive_errors) ∧
    (∀ rl msg, 0 ≤ rl.consecutive_errors →
      0 ≤ ((on_error rl msg).1).consecutive_errors) ∧
    (∀ rl, 0 ≤ rl.consecutive_errors →
      0 ≤ (on_success rl).consecutive_errors) ∧
    (∀ rl, 0 < rl.consecutive_errors →
      (on_success rl).consecutive_errors = rl.consecutive_errors - 1) := by
  refine ⟨fun base maxd mpm mult => rfl, fun rl env => rfl, ?_, ?_, ?_⟩
  · intro rl msg h
    rw [on_error_state]
    show 0 ≤ rl.consecutive_errors + 1
    omega
  · intro rl h
    unfold on_success
    split
    · show 0 ≤ max 0 (rl.consecutive_errors - 1)
      omega
    · exact h
  · intro rl h
    unfold on_success
    rw [if_pos h]
    show max 0 (rl.consecutive_errors - 1) = rl.consecutive_errors - 1
    omega

/-- Witness for C9 at the default configuration. -/
theorem c9_error_counter_invariant_witness :
    rl0.consecutive_errors = 0 ∧
    ((wait_if_needed rl0 env0).1).consecutive_errors = 0 ∧
    0 ≤ ((on_error rl0 ("zap")).1).consecutive_errors ∧
    0 ≤ (on_success (on_error rl0 ("zap")).1).consecutive_errors ∧
    (on_success (on_error rl0 ("zap")).1).consecutive_errors =
      ((on_error rl0 ("zap")).1).consecutive_errors - 1 := by
  obtain ⟨h1, h2, h3, h4, h5⟩ := c9_error_counter_invariant
  refine ⟨h1 (1 / 4) 10 2200 2, h2 rl0 env0, ?_, ?_, ?_⟩
  · exact h3 rl0 ("zap") (by decide)
  · exact h4 _ (h3 rl0 ("zap") (by decide))
  · exact h5 _ (by decide)

/-! ## Claim C3 -/

/-- Claim C3: every `on_error` call increments the consecutive-error
counter by 1; for a rate-limit message (the code's substring test, which
matches the phrase "rate limit" case-insensitively) it sleeps
`min(5·2^(consecutiveErrors−1), 60)` with the post-increment counter;
otherwise, for an API-error message, it sleeps the linear backoff
`min(1·consecutiveErrors, 10)`. -/
theorem c3_on_error_contract (rl : RateLimiterState) (msg : String) :
    ((on_error rl msg).1.consecutive_errors = rl.consecutive_errors + 1) ∧
    (is_rate_limit_error msg = true →
      (on_error rl msg).2 =
        min (5 * (2 : ℚ) ^ (rl.consecutive_errors + 1 - 1)) 60) ∧
    (is_rate_limit_error msg = false → is_api_error msg = true →
      (on_error rl msg).2 =
        min (1 * ((rl.consecutive_errors + 1 : ℤ) : ℚ)) 10) := by
  refine ⟨by rw [on_error_state], ?_, ?_⟩
  · intro h
    unfold on_error
    rw [if_pos h]
    exact min_exp_backoff (rl.consecutive_errors + 1 - 1)
  · intro h1 h2
    unfold on_error
    rw [if_neg (by simp [h1]), if_pos h2]

/-- Witness for C3: a case-insensitively matched rate-limit message and
an API-error message, starting from the freshly initialised limiter. -/
theorem c3_on_error_contract_witness :
    ((on_error rl0 ("Rate Limit exceeded")).1.consecutive_errors = 1) ∧
    ((on_error rl0 ("Rate Limit exceeded")).2 =
      min (5 * (2 : ℚ) ^ ((0 : ℤ) + 1 - 1)) 60) ∧
    ((on_error rl0 ("APIError: bad nonce")).2 =
      min (1 * (((0 : ℤ) + 1 : ℤ) : ℚ)) 10) := by
  refine ⟨(c3_on_error_contract rl0 ("Rate Limit exceeded")).1, ?_, ?_⟩
  · exact (c3_on_error_contract rl0 ("Rate Limit exceeded")).2.1 (by decide)
  · exact (c3_on_error_contract rl0 ("APIError: bad nonce")).2.2
      (by decide) (by decide)

/-! ## Claim C4 -/

/-- Consecutive `on_error` calls only bump the consecutive-error
counter, once per call. -/
theorem applyErrors_eq (rl : RateLimiterState) (msgs : List String) :
    applyErrors rl msgs =
      { rl with consecutive_errors :=
          rl.consecutive_errors + msgs.length } := by
  induction msgs generalizing rl with
  | nil => simp [applyErrors]
  | cons m ms ih =>
    rw [applyErrors, on_error_state, ih]
    simp only [List.length_cons]
    congr 1
    push_cast
    ring

/-- Monotonicity of the request-frequency adjustment factor of
`calculate_dynamic_delay` in the underlying delay. -/
theorem freq_mono (R : ℕ) (a b : ℚ) (hab : a ≤ b) :
    (if 20 < R then a * (3 / 2) else if 15 < R then a * (6 / 5) else a) ≤
      (if 20 < R then b * (3 / 2) else if 15 < R then b * (6 / 5) else b) := by
  split_ifs <;> nlinarith

/-- Monotonicity of `calculate_dynamic_delay` in the consecutive-error
counter, all other state held fixed. -/
theorem dyn_delay_mono (rl1 rl2 : RateLimiterState) (ct j : ℚ)
    (hr : rl1.request_times = rl2.request_times)
    (hbase : rl1.base_delay = rl2.base_delay)
    (hmaxd : rl1.max_delay = rl2.max_delay)
    (hmult : rl1.error_backoff_multiplier = rl2.error_backoff_multiplier)
    (hb : 0 ≤ rl1.base_delay) (hm : 1 ≤ rl1.error_backoff_multiplier)
    (hj : 0 ≤ j)
    (he : rl1.consecutive_errors ≤ rl2.consecutive_errors) :
    calculate_dynamic_delay rl1 ct j ≤ calculate_dynamic_delay rl2 ct j := by
  have hcore :
      (if 0 < rl1.consecutive_errors then
        rl1.base_delay *
          rl1.error_backoff_multiplier ^ (min rl1.consecutive_errors 5)
        else rl1.base_delay) ≤
      (if 0 < rl2.consecutive_errors then
        rl2.base_delay *
          rl2.error_backoff_multiplier ^ (min rl2.consecutive_errors 5)
        else rl2.base_delay) := by
    rw [← hbase, ← hmult]
    split_ifs with h1 h2 h2
    · refine mul_le_mul_of_nonneg_left ?_ hb
      exact zpow_le_zpow_right₀ hm (min_le_min he (le_refl 5))
    · omega
    · refine le_mul_of_one_le_right hb ?_
      exact one_le_zpow₀ hm (by omega)
    · exact le_rfl
  unfold calculate_dynamic_delay
  rw [← hr, ← hmaxd]
  exact min_le_min
    (mul_le_mul_of_nonneg_right (freq_mono _ _ _ hcore) hj) le_rfl

/-- Claim C4: after `n` consecutive `on_error` calls with no intervening
`on_success`, the dynamic delay computed inside `wait_if_needed` is
non-decreasing in `n` (clock readings, jitter and configuration held
fixed, with the configured base delay non-negative, the backoff
multiplier at least 1 and the jitter in the spec's `[0.8, 1.2]` range),
and the delay is always clamped to at most the configured `max_delay`. -/
theorem c4_dynamic_delay_monotone (rl : RateLimiterState) (env : AdmitEnv)
    (msgs1 msgs2 : List String)
    (hb : 0 ≤ rl.base_delay) (hm : 1 ≤ rl.error_backoff_multiplier)
    (hj : 4 / 5 ≤ env.jitter)
    (hn : msgs1.length ≤ msgs2.length) :
    (wait_if_needed (applyErrors rl msgs1) env).2 ≤
      (wait_if_needed (applyErrors rl msgs2) env).2 ∧
    ∀ (rl2 : RateLimiterState) (env2 : AdmitEnv),
      (wait_if_needed rl2 env2).2 ≤ rl2.max_delay := by
  constructor
  · rw [applyErrors_eq, applyErrors_eq]
    show calculate_dynamic_delay _ env.t2 env.jitter ≤
      calculate_dynamic_delay _ env.t2 env.jitter
    refine dyn_delay_mono _ _ _ _ rfl rfl rfl rfl hb hm (by linarith) ?_
    show rl.consecutive_errors + (msgs1.length : ℤ) ≤
      rl.consecutive_errors + (msgs2.length : ℤ)
    omega
  · intro rl2 env2
    show min _ rl2.max_delay ≤ rl2.max_delay
    exact min_le_right _ _

/-- Witness for C4 at the default configuration: one error versus two. -/
theorem c4_dynamic_delay_monotone_witness :
    (wait_if_needed (applyErrors rl0 [("x")]) env0).2 ≤
      (wait_if_needed (applyErrors rl0 [("x"), ("y")]) env0).2 ∧
    (wait_if_needed rl0 env0).2 ≤ rl0.max_delay := by
  have h := c4_dynamic_delay_monotone rl0 env0 [("x")] [("x"), ("y")]
    (by simp [rl0, RateLimiterState.init]) (by simp [rl0, RateLimiterState.init])
    (by show (4 : ℚ) / 5 ≤ 1; norm_num) (by simp)
  exact ⟨h.1, h.2 rl0 env0⟩

/-! ## Claim C2 -/

/-- With at least one bar required, the accumulated exponential weights
are strictly positive. -/
theorem total_weight_pos {rb : ℕ} (h : 1 ≤ rb) :
    0 < ∑ i ∈ Finset.range rb, rsWeight rb i :=
  Finset.sum_pos (fun i _ => Real.exp_pos _)
    (Finset.nonempty_range_iff.mpr (by omega))

/-- Success-branch equation of `calculate_rs_score`. -/
theorem calc_rs_success {data : List Bar} {rb : ℕ} (h1 : 1 ≤ rb)
    (h2 : rb ≤ data.length) :
    calculate_rs_score data rb =
      (true,
        (∑ i ∈ Finset.range rb,
          barRelativeStrength
            ((data.drop (data.length - rb)).getD i default) *
              rsWeight rb i) /
          (∑ i ∈ Finset.range rb, rsWeight rb i),
        ("")) := by
  unfold calculate_rs_score
  rw [if_neg (by omega), if_pos (total_weight_pos h1)]

/-- Insufficient-branch equation of `calculate_rs_score`. -/
theorem calc_rs_insufficient {data : List Bar} {rb : ℕ}
    (h : data.length < rb) :
    calculate_rs_score data rb =
      (false, 0, ("Insufficient data: ") ++ toString data.length ++
        (" < ") ++ toString rb) := by
  unfold calculate_rs_score
  rw [if_pos h]

/-- The insufficient-data message never coincides with the weight-error
message. -/
theorem insuff_msg_ne (a b : ℕ) :
    ("Insufficient data: ") ++ toString a ++ (" < ") ++ toString b ≠
      ("Weight calculation error") := by
  intro h
  have h2 : (("Insufficient data: ") ++ toString a ++ (" < ") ++
      toString b).data.head? = some ('W') := by rw [h]; rfl
  rw [String.data_append, String.data_append, String.data_append] at h2
  have h3 : ("Insufficient data: ").data =
      ('I') :: ("nsufficient data: ").data := rfl
  rw [h3] at h2
  simp [List.cons_append] at h2

/-- Claim C2: for `required_bars ≥ 1`, `calculate_rs_score` fails with
the insufficient-data error exactly when the window holds fewer than
`required_bars` bars (and there the result depends only on the window's
length, never its bar data); with enough bars it succeeds, so the
defensive weight-error branch is unreachable. -/
theorem c2_score_raises_iff_insufficient (data : List Bar) (rb : ℕ)
    (h1 : 1 ≤ rb) :
    (data.length < rb →
      calculate_rs_score data rb =
        (false, 0, ("Insufficient data: ") ++ toString data.length ++
          (" < ") ++ toString rb)) ∧
    (rb ≤ data.length →
      ∃ s, calculate_rs_score data rb = (true, s, (""))) ∧
    ((calculate_rs_score data rb).1 = false ↔ data.length < rb) ∧
    ((calculate_rs_score data rb).2.2 ≠ ("Weight calculation error")) ∧
    (∀ data2 : List Bar, data2.length = data.length → data.length < rb →
      calculate_rs_score data2 rb = calculate_rs_score data rb) := by
  refine ⟨fun h => calc_rs_insufficient h, fun h => ⟨_, calc_rs_success h1 h⟩,
    ?_, ?_, ?_⟩
  · rcases lt_or_le data.length rb with h | h
    · rw [calc_rs_insufficient h]
      simpa using h
    · rw [calc_rs_success h1 h]
      simpa using by omega
  · rcases lt_or_le data.length rb with h | h
    · rw [calc_rs_insufficient h]
      exact insuff_msg_ne data.length rb
    · rw [calc_rs_success h1 h]
      simp
  · intro data2 hlen h
    rw [calc_rs_insufficient h, calc_rs_insufficient (hlen ▸ h), hlen]

/-- Witness for C2 at `required_bars = 1`: the empty window fails with
the insufficient-data message and a one-bar window succeeds. -/
theorem c2_score_raises_iff_insufficient_witness :
    (calculate_rs_score [] 1 =
      (false, 0, ("Insufficient data: ") ++ toString (0 : ℕ) ++
        (" < ") ++ toString (1 : ℕ))) ∧
    (∃ s, calculate_rs_score [bw0] 1 = (true, s, (""))) := by
  constructor
  · exact (c2_score_raises_iff_insufficient [] 1 (by decide)).1 (by decide)
  · exact (c2_score_raises_iff_insufficient [bw0] 1 (by decide)).2.1
      (by decide)

/-! ## Claim C5 -/

/-- Claim C5: prepending extra older bars in front of a window that
already holds at least `required_bars` bars leaves the result of
`calculate_rs_score` unchanged — only the trailing `required_bars` bars
matter. -/
theorem c5_prepended_history_invariant (window extra : List Bar)
    (rb : ℕ) (h : rb ≤ window.length) :
    calculate_rs_score (extra ++ window) rb =
      calculate_rs_score window rb := by
  have hdrop : (extra ++ window).drop ((extra ++ window).length - rb) =
      window.drop (window.length - rb) := by
    rw [List.length_append,
      show extra.length + window.length - rb =
        extra.length + (window.length - rb) from by omega,
      List.drop_append]
  have hc1 : ¬ ((extra ++ window).length < rb) := by
    rw [List.length_append]
    omega
  have hc2 : ¬ (window.length < rb) := by omega
  unfold calculate_rs_score
  rw [if_neg hc1, if_neg hc2, hdrop]

/-- Witness for C5: one extra older bar in front of a one-bar window. -/
theorem c5_prepended_history_invariant_witness :
    calculate_rs_score ([bw1] ++ [bw0]) 1 = calculate_rs_score [bw0] 1 :=
  c5_prepended_history_invariant [bw0] [bw1] 1 (by decide)

/-! ## Claim C6 -/

/-- Counterexample to C6 as stated: for the odd window length `L = 3`
the newest bar's weight is `2^(4/3)`, not twice the weight of the bar at
the truncated midpoint index `3/2 − 1 = 0`. -/
theorem c6_half_life_counterexample :
    ¬ (rsWeight 3 (3 - 1) = 2 * rsWeight 3 (3 / 2 - 1)) := by
  intro h
  unfold rsWeight at h
  norm_num at h
  have h2 : 2 * Real.log 2 / 3 * 2 = Real.log 2 := by
    rw [← Real.log_exp (2 * Real.log 2 / 3 * 2), h]
  have hlog : Real.log 2 ≠ 0 := ne_of_gt (Real.log_pos (by norm_num))
  apply hlog
  linarith

/-- Claim C6 (amended to even window lengths): for every even
`L = required_bars ≥ 2` the weight of the newest bar (index `L − 1`) is
exactly twice the weight of the midpoint bar (index `L/2 − 1`) in real
arithmetic; for odd `L` the truncated midpoint index breaks the
identity. -/
theorem c6_half_life_even (L : ℕ) (hL : 2 ≤ L) (heven : L % 2 = 0) :
    rsWeight L (L - 1) = 2 * rsWeight L (L / 2 - 1) := by
  obtain ⟨m, rfl⟩ : ∃ m, L = 2 * m := ⟨L / 2, by omega⟩
  have hm : 1 ≤ m := by omega
  unfold rsWeight
  rw [show 2 * m / 2 - 1 = m - 1 from by omega]
  push_cast [Nat.cast_sub (show 1 ≤ 2 * m by omega), Nat.cast_sub hm]
  have hm0 : ((m : ℝ)) ≠ 0 := Nat.cast_ne_zero.mpr (by omega)
  have key : 2 * Real.log 2 / (2 * (m : ℝ)) * (2 * (m : ℝ) - 1) =
      Real.log 2 + 2 * Real.log 2 / (2 * (m : ℝ)) * ((m : ℝ) - 1) := by
    field_simp
    ring
  rw [key, Real.exp_add, Real.exp_log (show (0 : ℝ) < 2 by norm_num)]

/-- Witness for the amended C6 at the even window length 4. -/
theorem c6_half_life_even_witness :
    rsWeight 4 (4 - 1) = 2 * rsWeight 4 (4 / 2 - 1) :=
  c6_half_life_even 4 (by decide) (by decide)

/-! ## Claim C7 -/

/-- Claim C7: on a window of exactly `required_bars` bars with
non-negative ATR values, strictly raising the close of the most recent
bar — holding its three moving averages, its ATR and every other bar
fixed — strictly raises the returned RS score. -/
theorem c7_score_monotone_newest_close (pre : List Bar) (b b2 : Bar)
    (rb : ℕ) (hlen : (pre ++ [b]).length = rb)
    (hatr : ∀ x ∈ pre ++ [b], 0 ≤ x.atr)
    (hclose : b.close < b2.close)
    (h30 : b2.sma_30 = b.sma_30) (h45 : b2.sma_45 = b.sma_45)
    (h60 : b2.sma_60 = b.sma_60) (hat : b2.atr = b.atr) :
    (calculate_rs_score (pre ++ [b]) rb).2.1 <
      (calculate_rs_score (pre ++ [b2]) rb).2.1 := by
  obtain rfl : rb = pre.length + 1 := by
    rw [← hlen]
    simp
  have h1 : 1 ≤ pre.length + 1 := by omega
  have hl1 : pre.length + 1 ≤ (pre ++ [b]).length := by simp
  have hl2 : pre.length + 1 ≤ (pre ++ [b2]).length := by simp
  rw [calc_rs_success h1 hl1, calc_rs_success h1 hl2]
  have hd1 : (pre ++ [b]).drop ((pre ++ [b]).length - (pre.length + 1)) =
      pre ++ [b] := by simp
  have hd2 : (pre ++ [b2]).drop ((pre ++ [b2]).length - (pre.length + 1)) =
      pre ++ [b2] := by simp
  rw [hd1, hd2]
  have hW := total_weight_pos h1
  rw [div_lt_div_iff_of_pos_right hW]
  rw [Finset.sum_range_succ, Finset.sum_range_succ]
  have hsums : ∑ i ∈ Finset.range pre.length,
      barRelativeStrength ((pre ++ [b]).getD i default) *
        rsWeight (pre.length + 1) i =
      ∑ i ∈ Finset.range pre.length,
        barRelativeStrength ((pre ++ [b2]).getD i default) *
          rsWeight (pre.length + 1) i := by
    refine Finset.sum_congr rfl fun i hi => ?_
    have hi2 : i < pre.length := Finset.mem_range.mp hi
    rw [List.getD_append _ _ _ _ hi2, List.getD_append _ _ _ _ hi2]
  have hb1 : (pre ++ [b]).getD pre.length default = b := by
    rw [List.getD_append_right _ _ _ _ (le_refl pre.length)]
    simp
  have hb2 : (pre ++ [b2]).getD pre.length default = b2 := by
    rw [List.getD_append_right _ _ _ _ (le_refl pre.length)]
    simp
  rw [hb1, hb2, hsums]
  refine add_lt_add_of_le_of_lt le_rfl ?_
  refine mul_lt_mul_of_pos_right ?_ (Real.exp_pos _)
  have hba : 0 ≤ b.atr := hatr b (by simp)
  have hden : 0 < b.atr + 1 / 10 ^ 19 := by positivity
  unfold barRelativeStrength
  rw [h30, h45, h60, hat]
  rw [div_lt_div_iff_of_pos_right hden]
  linarith

/-- Witness for C7: a one-bar window with close 0 versus close 1. -/
theorem c7_score_monotone_newest_close_witness :
    (calculate_rs_score ([] ++ [bw0]) 1).2.1 <
      (calculate_rs_score ([] ++ [bw1]) 1).2.1 := by
  refine c7_score_monotone_newest_close [] bw0 bw1 1 (by decide) ?_
    ?_ rfl rfl rfl rfl
  · intro x hx
    simp only [List.nil_append, List.mem_singleton] at hx
    rw [hx]
    show (0 : ℝ) ≤ 1
    simp
  · show (0 : ℝ) < 1
    simp

/-! ## Claim C1 -/

/-- Every supported timeframe has a digit prefix, so the `int()` parse
of lines 275–287 cannot fail on it. -/
theorem supported_interval_ok (tf : String) (days rb : ℕ)
    (h : calc_total_bars tf days = some rb) :
    ∃ k, estimate_interval_seconds tf = Except.ok k := by
  unfold calc_total_bars at h
  split_ifs at h with h1 h2 h3 h4 h5 h6 h7
  · exact ⟨300, by subst h1; decide⟩
  · exact ⟨900, by subst h2; decide⟩
  · exact ⟨1800, by subst h3; decide⟩
  · exact ⟨3600, by subst h4; decide⟩
  · exact ⟨7200, by subst h5; decide⟩
  · exact ⟨14400, by subst h6; decide⟩
  · exact ⟨28800, by subst h7; decide⟩

/-- Behaviour of `process_crypto` when the fetch raises: the exception's
message becomes the failure reason and is reported to `on_error`. -/
theorem process_crypto_error
    (fetch : String → Except String (Bool × List Bar)) (tf : String)
    (days rb : ℕ) (env : AdmitEnv) (s e : String)
    (rl : RateLimiterState) (hrb : calc_total_bars tf days = some rb)
    (hf : fetch s = .error e) :
    process_crypto fetch tf days env s rl =
      (.failed s e, (on_error (wait_if_needed rl env).1 e).1) := by
  obtain ⟨k, hk⟩ := supported_interval_ok tf days rb hrb
  unfold process_crypto
  rw [hk, hrb, hf]

/-- Behaviour of `process_crypto` on a successful fetch with enough
bars: a success outcome is recorded and `on_success` is called. -/
theorem process_crypto_success
    (fetch : String → Except String (Bool × List Bar)) (tf : String)
    (days rb : ℕ) (env : AdmitEnv) (s : String) (rl : RateLimiterState)
    (data : List Bar) (hrb : calc_total_bars tf days = some rb)
    (h1 : 1 ≤ rb) (hf : fetch s = .ok (true, data)) (hne : data ≠ [])
    (hlen : rb ≤ data.length) :
    ∃ sc, process_crypto fetch tf days env s rl =
      (.success s sc, on_success (wait_if_needed rl env).1) := by
  obtain ⟨k, hk⟩ := supported_interval_ok tf days rb hrb
  unfold process_crypto
  rw [hk, hrb, hf]
  dsimp only
  have hcond : (!true || data.isEmpty) = false := by simp [hne]
  rw [hcond, if_neg (by simp), calc_rs_success h1 hlen]
  exact ⟨_, rfl⟩

/-- One outcome is produced for every symbol of the batch. -/
theorem run_batch_length (fetch : String → Except String (Bool × List Bar))
    (tf : String) (days : ℕ) (envs : String → AdmitEnv)
    (syms : List String) (rl : RateLimiterState) :
    (run_batch fetch tf days envs syms rl).1.length = syms.length := by
  induction syms generalizing rl with
  | nil => rfl
  | cons s ss ih => simp [run_batch, ih]

/-- Claim C1: the batch loop yields exactly one outcome per symbol; a
symbol whose fetch raises is recorded as a `Failure` carrying the
exception's message (with the message reported to
`RateLimiter.on_error`), while a symbol whose fetch succeeds with a
non-empty window of at least `required_bars` bars is recorded as a
`Success` — no per-symbol exception aborts the batch. -/
theorem c1_batch_isolation
    (fetch : String → Except String (Bool × List Bar)) (tf : String)
    (days rb : ℕ) (envs : String → AdmitEnv) (syms : List String)
    (rl : RateLimiterState) (hrb : calc_total_bars tf days = some rb)
    (h1 : 1 ≤ rb) :
    ((run_batch fetch tf days envs syms rl).1.length = syms.length) ∧
    (∀ s rl0 e, fetch s = .error e →
      process_crypto fetch tf days (envs s) s rl0 =
        (.failed s e, (on_error (wait_if_needed rl0 (envs s)).1 e).1)) ∧
    (∀ i, i < syms.length →
      (∀ e, fetch (syms.getD i ("")) = .error e →
        (run_batch fetch tf days envs syms rl).1.getD i default =
          .failed (syms.getD i ("")) e) ∧
      (∀ data, fetch (syms.getD i ("")) = .ok (true, data) → data ≠ [] →
        rb ≤ data.length →
        ∃ sc, (run_batch fetch tf days envs syms rl).1.getD i default =
          .success (syms.getD i ("")) sc)) := by
  refine ⟨run_batch_length fetch tf days envs syms rl, ?_, ?_⟩
  · intro s rl0 e hf
    exact process_crypto_error fetch tf days rb (envs s) s e rl0 hrb hf
  · induction syms generalizing rl with
    | nil =>
      intro i hi
      exact absurd hi (by simp)
    | cons s ss ih =>
      intro i hi
      cases i with
      | zero =>
        constructor
        · intro e hf
          show (process_crypto fetch tf days (envs s) s rl).1 = _
          rw [process_crypto_error fetch tf days rb (envs s) s e rl hrb hf]
          rfl
        · intro data hf hne hlen
          obtain ⟨sc, hsc⟩ := process_crypto_success fetch tf days rb
            (envs s) s rl data hrb h1 hf hne hlen
          refine ⟨sc, ?_⟩
          show (process_crypto fetch tf days (envs s) s rl).1 = _
          rw [hsc]
          rfl
      | succ j =>
        have hj : j < ss.length := by
          simpa using hi
        have := ih ((process_crypto fetch tf days (envs s) s rl).2) j hj
        exact this

/-- Witness for C1: five symbols where the second and fourth fetches
raise; the batch still yields five outcomes, failures exactly there. -/
theorem c1_batch_isolation_witness :
    ((run_batch fetch0 ("1h") 1 (fun _ => env0)
      [("A"), ("B"), ("C"), ("D"), ("E")] rl0).1.length = 5) ∧
    ((run_batch fetch0 ("1h") 1 (fun _ => env0)
      [("A"), ("B"), ("C"), ("D"), ("E")] rl0).1.getD 1 default =
        .failed ("B") ("boom1")) ∧
    ((run_batch fetch0 ("1h") 1 (fun _ => env0)
      [("A"), ("B"), ("C"), ("D"), ("E")] rl0).1.getD 3 default =
        .failed ("D") ("boom2")) ∧
    (∃ sc, (run_batch fetch0 ("1h") 1 (fun _ => env0)
      [("A"), ("B"), ("C"), ("D"), ("E")] rl0).1.getD 0 default =
        .success ("A") sc) ∧
    (∃ sc, (run_batch fetch0 ("1h") 1 (fun _ => env0)
      [("A"), ("B"), ("C"), ("D"), ("E")] rl0).1.getD 2 default =
        .success ("C") sc) ∧
    (∃ sc, (run_batch fetch0 ("1h") 1 (fun _ => env0)
      [("A"), ("B"), ("C"), ("D"), ("E")] rl0).1.getD 4 default =
        .success ("E") sc) := by
  have h := c1_batch_isolation fetch0 ("1h") 1 24 (fun _ => env0)
    [("A"), ("B"), ("C"), ("D"), ("E")] rl0 (by decide) (by decide)
  obtain ⟨hlen, _, hidx⟩ := h
  have hrep : (List.replicate 24 bw0).length = 24 := by simp
  have hne : List.replicate 24 bw0 ≠ [] := by simp
  refine ⟨hlen, ?_, ?_, ?_, ?_, ?_⟩
  · exact (hidx 1 (by decide)).1 ("boom1") rfl
  · exact (hidx 3 (by decide)).1 ("boom2") rfl
  · exact (hidx 0 (by decide)).2 (List.replicate 24 bw0) rfl hne (by rw [hrep])
  · exact (hidx 2 (by decide)).2 (List.replicate 24 bw0) rfl hne (by rw [hrep])
  · exact (hidx 4 (by decide)).2 (List.replicate 24 bw0) rfl hne (by rw [hrep])

/-! ## Claim C10 -/

/-- Claim C10: for every timeframe outside the seven supported codes —
including the advertised but unsupported `1d` — `calc_total_bars`
returns `none`, and `process_crypto` records a per-symbol failure (with
the reason reported to `on_error`) instead of raising.  The failure
reason follows the source's evaluation order: if the `int()` parse of
lines 275–287 raises, its `ValueError` message is recorded; otherwise
the line-289 `None * int` `TypeError` message is — either way the
catch-all handler yields a failure record for every symbol. -/
theorem c10_unsupported_timeframe (tf : String)
    (hne : tf ∉ [("5m"), ("15m"), ("30m"), ("1h"), ("2h"), ("4h"), ("8h")]) :
    (∀ days, calc_total_bars tf days = none) ∧
    (∀ (days : ℕ) (fetch : String → Except String (Bool × List Bar))
      (env : AdmitEnv) (symbol : String) (rl : RateLimiterState),
      ∃ reason,
        process_crypto fetch tf days env symbol rl =
          (.failed symbol reason,
            (on_error (wait_if_needed rl env).1 reason).1) ∧
        (∀ e, estimate_interval_seconds tf = .error e → reason = e) ∧
        (∀ k, estimate_interval_seconds tf = .ok k →
          reason = noneTypeErrorMsg)) := by
  simp only [List.mem_cons, List.not_mem_nil, or_false, not_or] at hne
  obtain ⟨h5m, h15m, h30m, h1h, h2h, h4h, h8h⟩ := hne
  have hnone : ∀ days, calc_total_bars tf days = none := by
    intro days
    unfold calc_total_bars
    rw [if_neg h5m, if_neg h15m, if_neg h30m, if_neg h1h, if_neg h2h,
      if_neg h4h, if_neg h8h]
  refine ⟨hnone, ?_⟩
  intro days fetch env symbol rl
  rcases hcase : estimate_interval_seconds tf with e | k
  · refine ⟨e, ?_, ?_, ?_⟩
    · unfold process_crypto
      rw [hcase]
    · intro e2 he2
      exact Except.error.inj he2
    · intro k2 hk2
      exact absurd hk2 (by simp)
  · refine ⟨noneTypeErrorMsg, ?_, ?_, ?_⟩
    · unfold process_crypto
      rw [hcase, hnone days]
    · intro e2 he2
      exact absurd he2 (by simp)
    · intro k2 hk2
      rfl

/-- Witness for C10 at the CLI-advertised timeframe `1d` (where the
parse succeeds and the `TypeError` of `None * int` is recorded) and at
`am` (where `int()` raises first and its `ValueError` message is
recorded). -/
theorem c10_unsupported_timeframe_witness :
    calc_total_bars ("1d") 3 = none ∧
    process_crypto (fun _ => .ok (true, [])) ("1d") 3 env0 ("BTCUSDT")
        rl0 =
      (.failed ("BTCUSDT") noneTypeErrorMsg,
        (on_error (wait_if_needed rl0 env0).1 noneTypeErrorMsg).1) ∧
    process_crypto (fun _ => .ok (true, [])) ("am") 3 env0 ("BTCUSDT")
        rl0 =
      (.failed ("BTCUSDT") (pyIntError ("a")),
        (on_error (wait_if_needed rl0 env0).1 (pyIntError ("a"))).1) := by
  have h1d := c10_unsupported_timeframe ("1d") (by decide)
  have ham := c10_unsupported_timeframe ("am") (by decide)
  refine ⟨h1d.1 3, ?_, ?_⟩
  · obtain ⟨reason, heq, _, hok⟩ :=
      h1d.2 3 (fun _ => .ok (true, [])) env0 ("BTCUSDT") rl0
    rw [hok 86400 (by decide)] at heq
    exact heq
  · obtain ⟨reason, heq, herr, _⟩ :=
      ham.2 3 (fun _ => .ok (true, [])) env0 ("BTCUSDT") rl0
    rw [herr (pyIntError ("a")) (by decide)] at heq
    exact heq

/-! ## Claim C8 -/

section RankingProofs

variable {K : Type}

/-- Assignment of a fresh key appends to the dict. -/
theorem dict_assign_notMem (d : List (String × K)) (key : String) (v : K)
    (h : key ∉ d.map Prod.fst) : dict_assign d key v = d ++ [(key, v)] := by
  unfold dict_assign
  rw [if_neg]
  intro hc
  rw [List.any_eq_true] at hc
  obtain ⟨q, hq, hqk⟩ := hc
  rw [beq_iff_eq] at hqk
  exact h (List.mem_map.mpr ⟨q, hq, hqk⟩)

/-- With pairwise-distinct success symbols, the partition loop extends
the accumulator dict by the success pairs in iteration order. -/
theorem build_results_fst (results : List (ScoreOutcome K))
    (acc1 : List (String × K)) (acc2 : List (String × String))
    (hdisj : ∀ k ∈ acc1.map Prod.fst,
      k ∉ (successPairs results).map Prod.fst)
    (hnd : ((successPairs results).map Prod.fst).Nodup) :
    (build_results (acc1, acc2) results).1 = acc1 ++ successPairs results := by
  induction results generalizing acc1 acc2 with
  | nil => simp [build_results, successPairs]
  | cons hd tl ih =>
    cases hd with
    | failed c reason =>
      rw [build_results, successPairs]
      exact ih acc1 (acc2 ++ [(c, reason)]) hdisj hnd
    | success c s =>
      have hsplit : c ∉ (successPairs tl).map Prod.fst ∧
          ((successPairs tl).map Prod.fst).Nodup := by
        have h0 := hnd
        rw [successPairs, List.map_cons, List.nodup_cons] at h0
        exact h0
      have hcnotin : c ∉ acc1.map Prod.fst := by
        intro hc
        refine hdisj c hc ?_
        simp [successPairs]
      have hih : (build_results (acc1 ++ [(c, s)], acc2) tl).1 =
          (acc1 ++ [(c, s)]) ++ successPairs tl := by
        refine ih (acc1 ++ [(c, s)]) acc2 ?_ hsplit.2
        intro k hk
        rw [List.map_append, List.mem_append] at hk
        rcases hk with hk | hk
        · intro hmem
          refine hdisj k hk ?_
          simp only [successPairs, List.map_cons]
          exact List.mem_cons.mpr (Or.inr hmem)
        · have hkc : k = c := by simpa using hk
          rw [hkc]
          exact hsplit.1
      simp only [build_results]
      rw [dict_assign_notMem acc1 c s hcnotin, hih, successPairs,
        List.append_assoc]
      rfl

/-- Looking up the head key of a dict. -/
theorem dict_get_cons_self [Inhabited K] (p : String × K)
    (t : List (String × K)) (x : String) (h : p.1 = x) :
    dict_get (p :: t) x = p.2 := by
  unfold dict_get
  rw [List.find?_cons_of_pos]
  rw [beq_iff_eq]
  exact h

/-- Lookup skips entries with other keys. -/
theorem dict_get_cons_ne [Inhabited K] (p : String × K)
    (t : List (String × K)) (x : String) (h : p.1 ≠ x) :
    dict_get (p :: t) x = dict_get t x := by
  unfold dict_get
  rw [List.find?_cons_of_neg]
  simp [h]

/-- With pairwise-distinct keys, lookup returns the stored value. -/
theorem dict_get_mem [Inhabited K] {d : List (String × K)}
    (hfst : (d.map Prod.fst).Nodup) {x : String} {v : K}
    (hmem : (x, v) ∈ d) : dict_get d x = v := by
  induction d with
  | nil => cases hmem
  | cons p t ih =>
    rw [List.map_cons, List.nodup_cons] at hfst
    rcases List.mem_cons.mp hmem with h | h
    · rw [dict_get_cons_self p t x (by rw [← h])]
      rw [← h]
    · have hne : p.1 ≠ x := by
        intro he
        exact hfst.1 (he ▸ List.mem_map.mpr ⟨(x, v), h, rfl⟩)
      rw [dict_get_cons_ne p t x hne]
      exact ih hfst.2 h

/-- Inserting an element that satisfies `p` in front of everything it
relates to keeps it ahead of the `p`-filtered list. -/
theorem orderedInsert_filter_pos (r : α → α → Prop) [DecidableRel r]
    (p : α → Bool) (a : α) (l : List α) (hpa : p a = true)
    (himp : ∀ b, ¬ r a b → p b = false) :
    (List.orderedInsert r a l).filter p = a :: l.filter p := by
  induction l with
  | nil => simp [hpa]
  | cons b t ih =>
    rw [List.orderedInsert]
    by_cases h : r a b
    · rw [if_pos h, List.filter_cons_of_pos hpa]
    · have hpb : p b = false := himp b h
      rw [if_neg h, List.filter_cons_of_neg (by simp [hpb]),
        List.filter_cons_of_neg (by simp [hpb]), ih]

/-- Inserting an element that fails `p` leaves the `p`-filtered list
unchanged. -/
theorem orderedInsert_filter_neg (r : α → α → Prop) [DecidableRel r]
    (p : α → Bool) (a : α) (l : List α) (hpa : p a = false) :
    (List.orderedInsert r a l).filter p = l.filter p := by
  induction l with
  | nil => simp [hpa]
  | cons b t ih =>
    rw [List.orderedInsert]
    by_cases h : r a b
    · rw [if_pos h, List.filter_cons_of_neg (by simp [hpa])]
    · rw [if_neg h, List.filter_cons, List.filter_cons, ih]

/-- Stability of insertion sort: the elements of any compatible
`p`-class keep their original relative order. -/
theorem insertionSort_filter (r : α → α → Prop) [DecidableRel r]
    (p : α → Bool)
    (hcomp : ∀ a b, p a = true → ¬ r a b → p b = false) (l : List α) :
    (List.insertionSort r l).filter p = l.filter p := by
  induction l with
  | nil => rfl
  | cons a t ih =>
    rw [List.insertionSort]
    rcases Bool.eq_false_or_eq_true (p a) with hpa | hpa
    · rw [orderedInsert_filter_pos r p a _ hpa (fun b => hcomp a b hpa), ih,
        List.filter_cons_of_pos hpa]
    · rw [orderedInsert_filter_neg r p a _ hpa, ih,
        List.filter_cons_of_neg (by simp [hpa])]

end RankingProofs

/-- Claim C8 (amended): with pairwise-distinct successful symbols the
`target_score` dict holds the success pairs in iteration order; the
ranked output is the dict's keys stably sorted descending by score
(ties keep original iteration order) and the visible artifact is
truncated to at most 20 entries — exactly 20 when there are 25
successes, descending by score, and strictly descending when the
scores are pairwise distinct. -/
theorem c8_ranking_top20 {K : Type} [LinearOrder K] [Inhabited K]
    (results : List (ScoreOutcome K)) (d : List (String × K))
    (hd : d = (build_results ([], []) results).1)
    (hkeys : ((successPairs results).map Prod.fst).Nodup) :
    d = successPairs results ∧
    (top_targets d).length ≤ 20 ∧
    ((successPairs results).length = 25 → (top_targets d).length = 20) ∧
    List.Sorted (fun x y => dict_get d y ≤ dict_get d x)
      (top_targets d) ∧
    (∀ c : K, (rank_targets d).filter (fun x => dict_get d x == c) =
      (d.map Prod.fst).filter (fun x => dict_get d x == c)) ∧
    (((successPairs results).map Prod.snd).Nodup →
      List.Sorted (fun x y => dict_get d y < dict_get d x)
        (top_targets d)) := by
  have hd0 : d = successPairs results := by
    rw [hd, build_results_fst results [] [] (by simp) hkeys]
    rfl
  have hlenrank : (rank_targets d).length = d.length := by
    unfold rank_targets
    rw [List.length_insertionSort, List.length_map]
  have hfstnodup : (d.map Prod.fst).Nodup := by
    rw [hd0]
    exact hkeys
  haveI htot : IsTotal String (fun x y => dict_get d y ≤ dict_get d x) :=
    ⟨fun a b => le_total (dict_get d b) (dict_get d a)⟩
  haveI htrans : IsTrans String (fun x y => dict_get d y ≤ dict_get d x) :=
    ⟨fun _ _ _ hab hbc => le_trans hbc hab⟩
  have hsorted : List.Sorted (fun x y => dict_get d y ≤ dict_get d x)
      (rank_targets d) := List.sorted_insertionSort _ _
  refine ⟨hd0, ?_, ?_, ?_, ?_, ?_⟩
  · unfold top_targets
    rw [List.length_take]
    exact min_le_left 20 _
  · intro h25
    unfold top_targets
    rw [List.length_take, hlenrank, hd0, h25]
    decide
  · exact hsorted.sublist (List.take_sublist 20 _)
  · intro c
    refine insertionSort_filter _ _ ?_ _
    intro a b ha hb
    rw [beq_iff_eq] at ha
    rw [beq_eq_false_iff_ne]
    intro hbc
    exact hb (le_of_eq (by rw [ha, hbc]))
  · intro hsnd
    have hsnd' : (d.map Prod.snd).Nodup := by
      rw [hd0]
      exact hsnd
    have hperm : List.Perm (rank_targets d) (d.map Prod.fst) :=
      List.perm_insertionSort _ _
    have hrnodup : (rank_targets d).Nodup :=
      (hperm.nodup_iff).mpr hfstnodup
    have hpair := hsorted.and hrnodup
    have hstrict : List.Pairwise
        (fun x y => dict_get d y < dict_get d x) (rank_targets d) := by
      refine hpair.imp_of_mem ?_
      intro x y hx hy hxy
      have hxm : x ∈ d.map Prod.fst := (List.mem_insertionSort _).mp hx
      have hym : y ∈ d.map Prod.fst := (List.mem_insertionSort _).mp hy
      obtain ⟨px, hpx, hpx1⟩ := List.mem_map.mp hxm
      obtain ⟨py, hpy, hpy1⟩ := List.mem_map.mp hym
      have hgx : dict_get d x = px.2 := by
        refine dict_get_mem hfstnodup ?_
        rw [← hpx1]
        exact hpx
      have hgy : dict_get d y = py.2 := by
        refine dict_get_mem hfstnodup ?_
        rw [← hpy1]
        exact hpy
      refine lt_of_le_of_ne hxy.1 ?_
      intro heq
      apply hxy.2
      have hpxy : px = py := by
        refine List.inj_on_of_nodup_map hsnd' hpx hpy ?_
        rw [← hgx, ← hgy, heq]
      rw [← hpx1, ← hpy1, hpxy]
    exact hstrict.sublist (List.take_sublist 20 _)

/-- Counterexample to C8 as stated: with 25 successes that tie on score
the 20-entry output is not strictly descending (ties are kept in
iteration order), and with 25 successes sharing one symbol the dict
collapses them, leaving a single output entry. -/
theorem c8_ranking_top20_counterexample :
    ((top_targets c8DictTied).length = 20 ∧
      ¬ List.Sorted
        (fun x y => dict_get c8DictTied y < dict_get c8DictTied x)
        (top_targets c8DictTied)) ∧
    ((successPairs c8ResultsDup).length = 25 ∧
      (top_targets c8DictDup).length = 1) := by
  refine ⟨⟨by decide, by decide⟩, by decide, by decide⟩

/-- Witness for the amended C8: 25 distinct symbols with
pairwise-distinct scores yield exactly 20 entries, strictly descending. -/
theorem c8_ranking_top20_witness :
    c8DictDistinct = successPairs c8ResultsDistinct ∧
    (top_targets c8DictDistinct).length = 20 ∧
    List.Sorted
      (fun x y => dict_get c8DictDistinct y < dict_get c8DictDistinct x)
      (top_targets c8DictDistinct) := by
  have h := c8_ranking_top20 c8ResultsDistinct c8DictDistinct rfl
    (by decide)
  exact ⟨h.1, h.2.2.1 (by decide), h.2.2.2.2.2 (by decide)⟩

end Screener

